import Mathlib

/-!
Verification development for the Transcript Analytics Session
(`src/speechBOt/js/speech-recognition.js`, class `SpeechRecognitionManager`).

Strings are modelled as `List Char`.  The JavaScript string operations the
source uses (`trim`, `toLowerCase`, `split(/\s+/)`, `replace(/[^\w\s]|_/g,"")`,
and whole-word case-insensitive regex match counting with the `g` flag) are
given explicit executable models below.  JS numbers that hold millisecond
timestamps are modelled as `Nat`; the derived analytics quantities are
modelled as rationals (`ℚ`), with `Math.round` modelled as
`fun q => ⌊q + 1/2⌋` (JS rounds half toward positive infinity).
-/

/-- JS `\w` word character: `[A-Za-z0-9_]` (inputs here are ASCII). -/
def isWordChar (c : Char) : Bool := c.isAlphanum || c == '_'

/-- JS `String.prototype.toLowerCase`, character-wise (ASCII). -/
def jsToLower (s : List Char) : List Char := s.map Char.toLower

/-- JS `String.prototype.trim`: drop whitespace at both ends. -/
def jsTrim (s : List Char) : List Char :=
  ((s.dropWhile Char.isWhitespace).reverse.dropWhile Char.isWhitespace).reverse

/-- Split at every single whitespace character (adjacent separators yield
empty pieces); helper for the `/\s+/` split. -/
def splitOnWs : List Char → List (List Char)
  | [] => [[]]
  | c :: cs =>
    if c.isWhitespace then [] :: splitOnWs cs
    else
      match splitOnWs cs with
      | [] => [[c]]
      | t :: ts => (c :: t) :: ts

/-- JS `split(/\s+/)`: maximal whitespace runs separate the pieces, so the
empty pieces produced by adjacent separators collapse, except that a leading
or trailing whitespace run still contributes an empty first or last piece
(`"".split` gives `[""]`, `" ".split` gives `["",""]`). -/
def jsSplitWs (s : List Char) : List (List Char) :=
  match splitOnWs s with
  | [] => []
  | [x] => [x]
  | x :: rest => x :: ((rest.dropLast.filter (fun t => !t.isEmpty)) ++ [rest.getLastD []])

/-- JS `word.replace(/[^\w\s]|_/g, "")`: delete every character that is
neither a word character nor whitespace, and every underscore. -/
def cleanWord (w : List Char) : List Char :=
  w.filter (fun c => (isWordChar c || c.isWhitespace) && c != '_')

/-- Case-insensitive prefix test (both sides lowercased character-wise). -/
def startsWithCI : List Char → List Char → Bool
  | [], _ => true
  | _ :: _, [] => false
  | p :: ps, c :: cs => (p.toLower == c.toLower) && startsWithCI ps cs

/-- `\b` holds before the match: start of string or preceding character is
not a word character (every filler phrase begins with a word character). -/
def boundaryBefore : Option Char → Bool
  | none => true
  | some c => !isWordChar c

/-- `\b` holds after the match: end of string or following character is not
a word character (every filler phrase ends with a word character). -/
def boundaryAfter : List Char → Bool
  | [] => true
  | c :: _ => !isWordChar c

/-- Left-to-right non-overlapping scan of `new RegExp('\\b'+p+'\\b','gi')`
over the text: at each position try a whole-word case-insensitive match of
`p`; on success count it and resume after the matched characters (the `g`
flag resumes at `lastIndex`), else advance one character.  `prev` is the
character before the current position, for the leading `\b` test.  Fuel is
the remaining text length, so the recursion is structural. -/
def countWWAux (p : List Char) : Nat → Option Char → List Char → Nat
  | 0, _, _ => 0
  | _ + 1, _, [] => 0
  | fuel + 1, prev, c :: cs =>
    if boundaryBefore prev && startsWithCI p (c :: cs) &&
        boundaryAfter ((c :: cs).drop p.length) then
      1 + countWWAux p fuel (some (((c :: cs).take p.length).getLastD c)) (cs.drop (p.length - 1))
    else
      countWWAux p fuel (some c) cs

/-- Number of matches of `transcript.match(new RegExp('\\b'+p+'\\b','gi'))`. -/
def countWholeWordCI (p t : List Char) : Nat := countWWAux p t.length none t

example : jsSplitWs "hello  world".toList = ["hello".toList, "world".toList] := by decide
example : jsSplitWs [] = [[]] := by decide
example : jsTrim "  a b ".toList = "a b".toList := by decide
example : cleanWord "don't_x!".toList = "dontx".toList := by decide
example : countWholeWordCI "um".toList "um I think this is like really great".toList = 1 := by
  decide
example : countWholeWordCI "like".toList "Um, liked it... like, you know LIKE that".toList
    = 2 := by decide

/-! ## Data model (constructor, lines 6-35 of the source)

A capability-absent construction (`!('webkitSpeechRecognition' in window) &&
!('SpeechRecognition' in window)`) returns from the constructor before any
field is initialised, so such a session object has every field `undefined`;
it is modelled as `none`.  A capability-present session is `some` of the
initialised record. -/

/-- Default filler-phrase list (line 25 of the source). -/
def fillerWords : List (List Char) :=
  ["um", "uh", "like", "you know", "actually", "basically", "literally",
   "sort of", "kind of"].map String.toList

/-- The session fields initialised by the constructor (lines 21-31).
`startTime` is `none` for JS `null`; the callback slots are modelled by
whether a (non-null) handler is currently registered, which is all the
emission checks `if (this.onTranscriptUpdate)` / `if (this.onAnalyticsUpdate)`
observe. -/
structure InitState where
  isRecording : Bool
  transcriptText : List Char
  startTime : Option Nat
  wordCount : Nat
  fillerWordCount : Nat
  uniqueWords : Finset (List Char)
  onTranscriptUpdate : Bool
  onAnalyticsUpdate : Bool
  deriving DecidableEq

/-- Field values set by the constructor (lines 21-31): not recording, empty
transcript, `startTime = null`, zero counters, empty vocabulary set, no
callbacks registered. -/
def initState : InitState :=
  { isRecording := false
    transcriptText := []
    startTime := none
    wordCount := 0
    fillerWordCount := 0
    uniqueWords := ∅
    onTranscriptUpdate := false
    onAnalyticsUpdate := false }

/-- A `SpeechRecognitionManager` object: `none` when constructed without a
recognition capability (constructor returned early, all fields undefined). -/
def SessionState := Option InitState

instance : DecidableEq SessionState := by
  unfold SessionState
  infer_instance

/-- `new SpeechRecognitionManager()` in an environment with or without the
recognition capability. -/
def mkSession (capability : Bool) : SessionState :=
  if capability then some initState else none

/-- One entry of the `event.results` slice walked by the `onresult` handler
(from `event.resultIndex` to `event.results.length`): the fragment text
`event.results[i][0].transcript` and the flag `event.results[i].isFinal`. -/
structure FragmentRes where
  transcript : List Char
  isFinal : Bool
  deriving DecidableEq

/-- The analytics object built at lines 78-83 and 122-127.  `wpm` and
`duration` go through `Math.round`. -/
structure Analytics where
  fillerWordCount : Nat
  vocabularyDiversity : ℚ
  wpm : ℤ
  duration : ℤ
  deriving DecidableEq

/-- Everything externally observable that the session produces: control
requests to the engine (`this.recognition.start()` / `.stop()`) and
invocations of the registered callbacks. -/
inductive Output where
  | engineStart
  | engineStop
  | transcriptUpdate (finalText interimText : List Char)
  | analyticsUpdate (snapshot : Analytics) (isFinal : Bool)
  deriving DecidableEq

/-- JS `Math.round` on a rational: round half toward positive infinity. -/
def jsRound (q : ℚ) : ℤ := ⌊q + 1 / 2⌋

/-- Numeric coercion of a possibly-`null` timestamp: JS `null` becomes `0`
in arithmetic. -/
def jsNum (t : Option Nat) : Nat := t.getD 0

/-- JS truthiness of `this.startTime` (`null` and `0` are falsy). -/
def jsTruthyNat : Option Nat → Bool
  | none => false
  | some n => n != 0

namespace SRM

/-- The analytics snapshot formula shared by lines 75-83 (`onend`) and
119-127 (`_processTranscript`): `duration` in minutes is
`(now - startTime)/1000/60`, `wpm = Math.round(wordCount/duration)`,
`vocabularyDiversity = uniqueWords.size/wordCount || 0`, and the reported
`duration` is `Math.round(duration*60)` seconds.  Divisions are exact in
`ℚ` with the convention `q/0 = 0`; the JS `|| 0` turns the `0/0` `NaN` into
`0`, which agrees with `ℚ`.  (For `wordCount = 0 < uniqueWords.size` or a
zero elapsed time JS would produce `Infinity`; the former is impossible in
reachable states, and no property below depends on `wpm`.) -/
def snapshotOf (now : Nat) (st : InitState) : Analytics :=
  let durationMin : ℚ := (((now : ℤ) - (jsNum st.startTime : ℤ) : ℤ) : ℚ) / 1000 / 60
  { fillerWordCount := st.fillerWordCount
    vocabularyDiversity := (st.uniqueWords.card : ℚ) / (st.wordCount : ℚ)
    wpm := jsRound ((st.wordCount : ℚ) / durationMin)
    duration := jsRound (durationMin * 60) }

/-- State updates of `_processTranscript` (lines 92-115): split the trimmed,
lowercased text on whitespace runs; add the piece count to `wordCount`;
insert each punctuation-stripped non-empty piece into `uniqueWords`; add the
whole-word case-insensitive match count of every filler phrase over the raw
text to `fillerWordCount`. -/
def processTranscriptState (t : List Char) (st : InitState) : InitState :=
  let words := jsSplitWs (jsToLower (jsTrim t))
  { st with
    wordCount := st.wordCount + words.length
    uniqueWords := words.foldl
      (fun u w =>
        let cw := cleanWord w
        if cw.length > 0 then insert cw u else u)
      st.uniqueWords
    fillerWordCount := st.fillerWordCount +
      (fillerWords.map (fun fw => countWholeWordCI fw t)).sum }

/-- `_processTranscript` (lines 92-133): the state updates above, then — if
`this.startTime` is truthy — build the interim snapshot from the updated
state and invoke the analytics callback (when registered) with
`isFinal = false`. -/
def processTranscript (now : Nat) (t : List Char) (st : InitState) :
    InitState × List Output :=
  let st2 := processTranscriptState t st
  (st2,
    if jsTruthyNat st2.startTime then
      if st2.onAnalyticsUpdate then
        [Output.analyticsUpdate (snapshotOf now st2) false]
      else []
    else [])

/-- The `for` loop of the `onresult` handler (lines 43-52), carried over the
state, the batch-local `finalTranscript` and `interimTranscript`
accumulators, and the outputs emitted so far. -/
def resultLoop (now : Nat) :
    List FragmentRes → InitState → List Char → List Char → List Output →
    InitState × List Char × List Char × List Output
  | [], st, fin, itm, os => (st, fin, itm, os)
  | r :: rs, st, fin, itm, os =>
    if r.isFinal then
      resultLoop now rs (processTranscript now r.transcript st).1
        (fin ++ r.transcript) itm (os ++ (processTranscript now r.transcript st).2)
    else
      resultLoop now rs st fin (itm ++ r.transcript) os

/-- The `onresult` handler (lines 39-60): run the loop, then OVERWRITE
`this.transcriptText` with this batch's `finalTranscript` (line 55 assigns,
it does not append), then invoke the transcript callback when registered. -/
def onResult (now : Nat) (batch : List FragmentRes) (st : InitState) :
    InitState × List Output :=
  let r := resultLoop now batch st [] [] []
  let st2 := { r.1 with transcriptText := r.2.1 }
  (st2,
    r.2.2.2 ++
      if st2.onTranscriptUpdate then [Output.transcriptUpdate r.2.1 r.2.2.1] else [])

/-- The `onend` handler (lines 69-89): if still marked recording the halt
was unprompted, so re-issue the engine start request and emit nothing;
otherwise build the final snapshot and invoke the analytics callback (when
registered) with `isFinal = true`.  The session state itself is unchanged
on both paths. -/
def onEnd (now : Nat) (st : InitState) : InitState × List Output :=
  if st.isRecording then
    (st, [Output.engineStart])
  else
    (st,
      if st.onAnalyticsUpdate then
        [Output.analyticsUpdate (snapshotOf now st) true]
      else [])

/-- `start()` (lines 135-152) on an initialised session: set
`isRecording = true`, then call `this.recognition.start()`.  When the engine
call throws (`engineThrows`), the `catch` swallows the exception and the
statements after the call — recording `startTime` and resetting the three
counters — never run.  On success the start request is issued, the start
timestamp is recorded and the counters are reset. -/
def start (now : Nat) (engineThrows : Bool) (st : InitState) :
    InitState × List Output :=
  let st1 := { st with isRecording := true }
  if engineThrows then
    (st1, [])
  else
    ({ st1 with
        startTime := some now
        wordCount := 0
        fillerWordCount := 0
        uniqueWords := ∅ },
      [Output.engineStart])

/-- `stop()` (lines 154-164) on an initialised session: set
`isRecording = false`, then call `this.recognition.stop()`; a throw from the
engine call is caught and changes nothing further. -/
def stop (engineThrows : Bool) (st : InitState) : InitState × List Output :=
  let st1 := { st with isRecording := false }
  if engineThrows then (st1, []) else (st1, [Output.engineStop])

/-- The `onerror` handler (lines 63-66): report and call `this.stop()`. -/
def onError (engineThrows : Bool) (st : InitState) : InitState × List Output :=
  stop engineThrows st

end SRM

/-- The stimuli an initialised session can receive: the public methods
(`start`/`stop`/callback registration, with the engine's throwing behaviour
on a control request as a parameter) and the engine events
(`onresult`/`onend`/`onerror`). -/
inductive Event where
  | start (now : Nat) (engineThrows : Bool)
  | stop (engineThrows : Bool)
  | onresult (now : Nat) (batch : List FragmentRes)
  | onend (now : Nat)
  | onerror (engineThrows : Bool)
  | setTranscriptCb (hasCb : Bool)
  | setAnalyticsCb (hasCb : Bool)
  deriving DecidableEq

/-- Whether the event is a `start()` call. -/
def isStartEvent : Event → Bool
  | .start _ _ => true
  | _ => false

/-- Whether the event is a `start()` call whose engine request succeeds
(the only transition that resets the counters). -/
def isSuccessfulStart : Event → Bool
  | .start _ thr => !thr
  | _ => false

namespace SRM

/-- Dispatch one event to an initialised session.
`setTranscriptUpdateCallback` / `setAnalyticsUpdateCallback` are lines
166-172. -/
def stepInit (st : InitState) : Event → InitState × List Output
  | .start now thr => start now thr st
  | .stop thr => stop thr st
  | .onresult now batch => onResult now batch st
  | .onend now => onEnd now st
  | .onerror thr => onError thr st
  | .setTranscriptCb b => ({ st with onTranscriptUpdate := b }, [])
  | .setAnalyticsCb b => ({ st with onAnalyticsUpdate := b }, [])

/-- Dispatch one event to a session object.  On a capability-absent session
(`none`) `start()`/`stop()` return at the `if (!this.recognition)` guard, no
engine handlers were ever installed so engine events cannot arrive, and a
callback stored by a setter is never invoked; every event is therefore
without observable effect. -/
def step : SessionState → Event → SessionState × List Output
  | none, _ => (none, [])
  | some st, e => (some (stepInit st e).1, (stepInit st e).2)

/-- Run an initialised session over a list of events, concatenating the
outputs. -/
def runInit (st : InitState) : List Event → InitState × List Output
  | [] => (st, [])
  | e :: es =>
    ((runInit (stepInit st e).1 es).1,
      (stepInit st e).2 ++ (runInit (stepInit st e).1 es).2)

/-- Run a session object over a list of events. -/
def run (s : SessionState) : List Event → SessionState × List Output
  | [] => (s, [])
  | e :: es =>
    ((run (step s e).1 es).1, (step s e).2 ++ (run (step s e).1 es).2)

/-- `getTranscript()` (lines 174-176): reads `this.transcriptText`, which is
undefined (`none`) on a capability-absent session. -/
def getTranscript (s : SessionState) : Option (List Char) :=
  s.map (fun st => st.transcriptText)

/-- `isListening()` (lines 178-180): reads `this.isRecording`, which is
undefined (`none`) on a capability-absent session. -/
def isListening (s : SessionState) : Option Bool :=
  s.map (fun st => st.isRecording)

end SRM

/-! ## Spec-side quantities

These definitions state, in the spec's own vocabulary, the quantities the
claims compare the session against: the token list of a fragment, the total
token count and the set of distinct normalized (lowercased,
punctuation-stripped, non-empty) tokens of a sequence of final fragments,
and the vocabulary-diversity value those determine. -/

/-- The tokens of one fragment: lowercase, trim, split on whitespace runs
(the same pipeline `_processTranscript` applies, line 94). -/
def tokensOf (t : List Char) : List (List Char) := jsSplitWs (jsToLower (jsTrim t))

/-- Normalize one token: strip punctuation; drop it when nothing remains. -/
def normTok (w : List Char) : Option (List Char) :=
  let cw := cleanWord w
  if cw.length > 0 then some cw else none

/-- Total token count of a sequence of final fragments. -/
def totalTokens (fs : List (List Char)) : Nat := (fs.flatMap tokensOf).length

/-- The set of distinct normalized tokens of a sequence of final fragments. -/
def specVocab (fs : List (List Char)) : Finset (List Char) :=
  ((fs.flatMap tokensOf).filterMap normTok).toFinset

/-- Spec vocabulary diversity: distinct normalized tokens over total tokens,
`0` when there are no tokens. -/
def specVD (fs : List (List Char)) : ℚ :=
  if totalTokens fs = 0 then 0 else ((specVocab fs).card : ℚ) / (totalTokens fs : ℚ)

/-- Concatenation, in order, of the final fragments' texts of one batch
(what the `onresult` loop accumulates into `finalTranscript`). -/
def joinFinals (batch : List FragmentRes) : List Char :=
  ((batch.filter (fun r => r.isFinal)).map (fun r => r.transcript)).flatten

namespace SRM

/-- The session state after processing a sequence of final fragments
through the `_processTranscript` accounting. -/
def procFinals (st : InitState) : List (List Char) → InitState
  | [] => st
  | f :: fs => procFinals (processTranscriptState f st) fs

/-- A freshly constructed capability-present session with an analytics
callback registered, started successfully at time `t0`. -/
def startedOn (t0 : Nat) : InitState :=
  (start t0 false (stepInit initState (Event.setAnalyticsCb true)).1).1

end SRM

example :
    SRM.getTranscript
      (SRM.run (mkSession true)
        [Event.start 1 false,
         Event.onresult 2 [⟨"hello ".toList, true⟩],
         Event.onresult 3 [⟨"world".toList, true⟩]]).1
    = some "world".toList := by decide

example :
    (SRM.runInit (SRM.startedOn 5) [Event.stop false]).1.isRecording = false := by decide

example :
    (SRM.onEnd 65005 (SRM.runInit (SRM.startedOn 5) [Event.stop false]).1).2
    = [Output.analyticsUpdate ⟨0, 0, 0, 65⟩ true] := by
  norm_num [SRM.onEnd, SRM.runInit, SRM.stepInit, SRM.stop, SRM.startedOn, SRM.start,
    SRM.snapshotOf, jsRound, jsNum, initState]

/-! ## Helper lemmas -/

namespace SRM

lemma processTranscript_fst (now : Nat) (t : List Char) (st : InitState) :
    (processTranscript now t st).1 = processTranscriptState t st := rfl

lemma processTranscriptState_wordCount (t : List Char) (st : InitState) :
    (processTranscriptState t st).wordCount = st.wordCount + (tokensOf t).length := rfl

lemma processTranscriptState_fillerWordCount (t : List Char) (st : InitState) :
    (processTranscriptState t st).fillerWordCount
      = st.fillerWordCount + (fillerWords.map (fun fw => countWholeWordCI fw t)).sum := rfl

lemma processTranscriptState_startTime (t : List Char) (st : InitState) :
    (processTranscriptState t st).startTime = st.startTime := rfl

lemma processTranscriptState_isRecording (t : List Char) (st : InitState) :
    (processTranscriptState t st).isRecording = st.isRecording := rfl

lemma processTranscriptState_onAnalyticsUpdate (t : List Char) (st : InitState) :
    (processTranscriptState t st).onAnalyticsUpdate = st.onAnalyticsUpdate := rfl

/-- The `uniqueWords` fold of `_processTranscript` adds exactly the
normalized non-empty tokens. -/
lemma foldl_insert_cleanWord (ws : List (List Char)) :
    ∀ u : Finset (List Char),
      ws.foldl
        (fun u w =>
          let cw := cleanWord w
          if cw.length > 0 then insert cw u else u) u
      = u ∪ (ws.filterMap normTok).toFinset := by
  induction ws with
  | nil => intro u; simp
  | cons w ws ih =>
    intro u
    rw [List.foldl_cons, ih]
    by_cases h : (cleanWord w).length > 0
    · simp only [h, if_true, normTok, List.filterMap_cons]
      simp only [h, if_true, List.toFinset_cons]
      rw [Finset.insert_union, Finset.union_insert]
    · simp only [h, if_false, normTok, List.filterMap_cons]

lemma processTranscriptState_uniqueWords (t : List Char) (st : InitState) :
    (processTranscriptState t st).uniqueWords
      = st.uniqueWords ∪ ((tokensOf t).filterMap normTok).toFinset := by
  simpa [processTranscriptState, tokensOf] using
    foldl_insert_cleanWord (jsSplitWs (jsToLower (jsTrim t))) st.uniqueWords

lemma procFinals_wordCount (fs : List (List Char)) :
    ∀ st : InitState, (procFinals st fs).wordCount = st.wordCount + totalTokens fs := by
  induction fs with
  | nil => intro st; simp [procFinals, totalTokens]
  | cons f fs ih =>
    intro st
    rw [procFinals, ih, processTranscriptState_wordCount]
    simp [totalTokens, List.flatMap_cons, Nat.add_assoc]

lemma procFinals_uniqueWords (fs : List (List Char)) :
    ∀ st : InitState, (procFinals st fs).uniqueWords = st.uniqueWords ∪ specVocab fs := by
  induction fs with
  | nil => intro st; simp [procFinals, specVocab]
  | cons f fs ih =>
    intro st
    rw [procFinals, ih, processTranscriptState_uniqueWords]
    simp [specVocab, List.flatMap_cons, List.filterMap_append, List.toFinset_append,
      Finset.union_assoc]

lemma procFinals_startTime (fs : List (List Char)) :
    ∀ st : InitState, (procFinals st fs).startTime = st.startTime := by
  induction fs with
  | nil => intro st; rfl
  | cons f fs ih => intro st; rw [procFinals, ih, processTranscriptState_startTime]

lemma procFinals_onAnalyticsUpdate (fs : List (List Char)) :
    ∀ st : InitState, (procFinals st fs).onAnalyticsUpdate = st.onAnalyticsUpdate := by
  induction fs with
  | nil => intro st; rfl
  | cons f fs ih => intro st; rw [procFinals, ih, processTranscriptState_onAnalyticsUpdate]

/-- Distinct normalized tokens never outnumber the tokens. -/
lemma specVocab_card_le (fs : List (List Char)) : (specVocab fs).card ≤ totalTokens fs :=
  le_trans (List.toFinset_card_le _) (List.length_filterMap_le _ _)

/-- The batch-local `finalTranscript` accumulator of the `onresult` loop
ends up holding the concatenation of the batch's final fragments. -/
lemma resultLoop_finalText (now : Nat) (rs : List FragmentRes) :
    ∀ (st : InitState) (fin itm : List Char) (os : List Output),
      (resultLoop now rs st fin itm os).2.1 = fin ++ joinFinals rs := by
  induction rs with
  | nil => intro st fin itm os; simp [resultLoop, joinFinals]
  | cons r rs ih =>
    intro st fin itm os
    by_cases h : r.isFinal
    · rw [resultLoop, if_pos h, ih]
      simp [joinFinals, h, List.append_assoc]
    · rw [resultLoop, if_neg h, ih]
      simp [joinFinals, h]

lemma resultLoop_startTime (now : Nat) (rs : List FragmentRes) :
    ∀ (st : InitState) (fin itm : List Char) (os : List Output),
      (resultLoop now rs st fin itm os).1.startTime = st.startTime := by
  induction rs with
  | nil => intro st fin itm os; rfl
  | cons r rs ih =>
    intro st fin itm os
    by_cases h : r.isFinal
    · rw [resultLoop, if_pos h, ih, processTranscript_fst, processTranscriptState_startTime]
    · rw [resultLoop, if_neg h, ih]

lemma resultLoop_mono (now : Nat) (rs : List FragmentRes) :
    ∀ (st : InitState) (fin itm : List Char) (os : List Output),
      st.wordCount ≤ (resultLoop now rs st fin itm os).1.wordCount ∧
      st.uniqueWords ⊆ (resultLoop now rs st fin itm os).1.uniqueWords ∧
      st.fillerWordCount ≤ (resultLoop now rs st fin itm os).1.fillerWordCount := by
  induction rs with
  | nil => intro st fin itm os; exact ⟨le_refl _, Finset.Subset.refl _, le_refl _⟩
  | cons r rs ih =>
    intro st fin itm os
    by_cases h : r.isFinal
    · rw [resultLoop, if_pos h]
      refine ⟨le_trans ?_ (ih _ _ _ _).1,
        Finset.Subset.trans ?_ (ih _ _ _ _).2.1,
        le_trans ?_ (ih _ _ _ _).2.2⟩
      · rw [processTranscript_fst, processTranscriptState_wordCount]
        exact Nat.le_add_right _ _
      · rw [processTranscript_fst, processTranscriptState_uniqueWords]
        exact Finset.subset_union_left
      · rw [processTranscript_fst, processTranscriptState_fillerWordCount]
        exact Nat.le_add_right _ _
    · rw [resultLoop, if_neg h]
      exact ih _ _ _ _

lemma onResult_fst_startTime (now : Nat) (batch : List FragmentRes) (st : InitState) :
    (onResult now batch st).1.startTime = st.startTime := by
  simp only [onResult]
  exact resultLoop_startTime now batch st [] [] []

lemma stepInit_startTime (st : InitState) (e : Event) (h : isStartEvent e = false) :
    (stepInit st e).1.startTime = st.startTime := by
  cases e with
  | start now thr => simp [isStartEvent] at h
  | stop thr => cases thr <;> rfl
  | onresult now batch => exact onResult_fst_startTime now batch st
  | onend now => simp only [stepInit, onEnd]; split <;> rfl
  | onerror thr => cases thr <;> rfl
  | setTranscriptCb b => rfl
  | setAnalyticsCb b => rfl

lemma runInit_startTime (evs : List Event) (h : ∀ e ∈ evs, isStartEvent e = false) :
    ∀ st : InitState, (runInit st evs).1.startTime = st.startTime := by
  induction evs with
  | nil => intro st; rfl
  | cons e es ih =>
    intro st
    rw [runInit]
    simp only []
    rw [ih (fun e he => h e (List.mem_cons_of_mem _ he)) _,
      stepInit_startTime st e (h e (List.mem_cons_self _ _))]

end SRM

/-! ## The claims -/

/-- Claim C1, counterexample.  The claim says `getTranscript()` returns the
concatenation of the final-fragment texts of ALL batches processed so far.
On the code, after a batch with final text `"hello "` and then a batch with
final text `"world"`, `getTranscript()` returns `"world"`: line 55 assigns
the batch-local `finalTranscript` to `this.transcriptText`, so the earlier
batch's final text is gone. -/
theorem C1_counterexample :
    SRM.getTranscript
      (SRM.run (mkSession true)
        [Event.start 1 false,
         Event.onresult 2 [⟨"hello ".toList, true⟩],
         Event.onresult 3 [⟨"world".toList, true⟩]]).1
      = some "world".toList ∧
    "world".toList ≠ "hello ".toList ++ "world".toList := by
  decide

/-- Claim C1, amended.  After the `onresult` handler processes a batch,
`this.transcriptText` — the value `getTranscript()` returns — is the
concatenation of the final-fragment texts of that most recent batch only,
whatever the session state was before. -/
theorem C1_amended (now : Nat) (batch : List FragmentRes) (st : InitState) :
    (SRM.onResult now batch st).1.transcriptText = joinFinals batch := by
  simp only [SRM.onResult]
  simpa using SRM.resultLoop_finalText now batch st [] [] []

/-- Claim C2, counterexample.  The claim says the session's observable state
is unchanged by a `start()`/`stop()` call whose engine request throws.  But
`start()` sets `this.isRecording = true` BEFORE the throwing
`this.recognition.start()` call, so a failed `start()` on an inactive
session leaves the active flag `true`. -/
theorem C2_counterexample :
    initState.isRecording = false ∧ (SRM.start 5 true initState).1.isRecording = true := by
  decide

/-- Claim C2, amended.  When the engine throws on the control request, the
exception is caught and the call returns normally; the start timestamp, the
word count, the filler count and the vocabulary set keep their previous
values (those updates sit after the throwing call), but the active flag has
already been set to the call's target value — `true` for `start()`, `false`
for `stop()` — and keeps it. -/
theorem C2_amended (st : InitState) (now : Nat) :
    SRM.start now true st = ({ st with isRecording := true }, []) ∧
    SRM.stop true st = ({ st with isRecording := false }, []) :=
  ⟨rfl, rfl⟩

/-- Claim C4: whenever the halt event arrives while the active flag is still
`true`, the handler re-issues the engine start request, emits no
analytics-update (no notification at all), and leaves the session state
unchanged; this holds for every active session state. -/
theorem C4 (st : InitState) (now : Nat) (h : st.isRecording = true) :
    SRM.onEnd now st = (st, [Output.engineStart]) := by
  simp [SRM.onEnd, h]

/-- Claim C4, witness at a concrete active state. -/
theorem C4_witness :
    (SRM.startedOn 3).isRecording = true ∧
    SRM.onEnd 9 (SRM.startedOn 3) = (SRM.startedOn 3, [Output.engineStart]) :=
  ⟨by decide, C4 (SRM.startedOn 3) 9 (by decide)⟩

/-- Claim C6, counterexample.  The claim says that after every `start()`
call the counters are zero and the active flag is `true`.  Both failure
paths break it: on a capability-absent session `start()` returns at the
guard and `isListening()` stays `undefined`, not `true`; and when the engine
start request throws, the counter resets after the throwing call never run,
so a session that already counted a word keeps `wordCount = 1`. -/
theorem C6_counterexample :
    SRM.isListening (SRM.step (mkSession false) (Event.start 5 false)).1 ≠ some true ∧
    (SRM.start 7 true (SRM.procFinals (SRM.startedOn 1) ["hello".toList])).1.wordCount ≠ 0 := by
  decide

/-- Claim C6, amended.  For every initialised (capability-present) session,
immediately after a `start()` call whose engine request does not throw, the
word count is `0`, the filler-word count is `0`, the vocabulary set is
empty, and the active flag is `true`. -/
theorem C6_amended (st : InitState) (now : Nat) :
    (SRM.start now false st).1.wordCount = 0 ∧
    (SRM.start now false st).1.fillerWordCount = 0 ∧
    (SRM.start now false st).1.uniqueWords = ∅ ∧
    (SRM.start now false st).1.isRecording = true :=
  ⟨rfl, rfl, rfl, rfl⟩

/-- Claim C7: calling `stop()` twice in a row leaves the active flag
unchanged after the first call, and neither `stop()` call emits any
analytics-update notification (only the halt event transition does), so two
consecutive `stop()` calls never cause two final-analytics emissions.  This
holds for every session state and for both throwing and non-throwing engine
stop requests. -/
theorem C7 (s : SessionState) (t1 t2 : Bool) :
    SRM.isListening (SRM.step (SRM.step s (Event.stop t1)).1 (Event.stop t2)).1
      = SRM.isListening (SRM.step s (Event.stop t1)).1 ∧
    (∀ a b, Output.analyticsUpdate a b ∉ (SRM.step s (Event.stop t1)).2) ∧
    (∀ a b, Output.analyticsUpdate a b ∉ (SRM.step (SRM.step s (Event.stop t1)).1 (Event.stop t2)).2) := by
  cases s with
  | none => cases t1 <;> cases t2 <;> simp [SRM.step, SRM.stepInit, SRM.stop, SRM.isListening]
  | some st => cases t1 <;> cases t2 <;> simp [SRM.step, SRM.stepInit, SRM.stop, SRM.isListening]

/-- Claim C3: for every session started at `t0` (analytics callback
registered) and every subsequent event sequence containing no further
`start()` call, if the active flag is `false` (a `stop()` was taken) when
the halt event arrives, the halt handler emits exactly one analytics-update,
it is flagged `isFinal = true`, and its reported elapsed seconds are
`Math.round` of the time from the original start timestamp `t0` to the halt
event's arrival `now`. -/
theorem C3 (t0 now : Nat) (evs : List Event)
    (hns : ∀ e ∈ evs, isStartEvent e = false)
    (hstop : (SRM.runInit (SRM.startedOn t0) evs).1.isRecording = false)
    (hcb : (SRM.runInit (SRM.startedOn t0) evs).1.onAnalyticsUpdate = true) :
    (SRM.onEnd now (SRM.runInit (SRM.startedOn t0) evs).1).2
      = [Output.analyticsUpdate
          (SRM.snapshotOf now (SRM.runInit (SRM.startedOn t0) evs).1) true] ∧
    (SRM.snapshotOf now (SRM.runInit (SRM.startedOn t0) evs).1).duration
      = jsRound (((now : ℚ) - (t0 : ℚ)) / 1000) := by
  have hst : (SRM.runInit (SRM.startedOn t0) evs).1.startTime = some t0 := by
    rw [SRM.runInit_startTime evs hns]
    rfl
  constructor
  · simp [SRM.onEnd, hstop, hcb]
  · simp only [SRM.snapshotOf, hst, jsNum, Option.getD]
    congr 1
    push_cast
    exact div_mul_cancel₀ _ (by norm_num)

/-- Claim C3, witness: start at `t0 = 5`, stop, halt at `now = 65005`. -/
theorem C3_witness :
    (∀ e ∈ [Event.stop false], isStartEvent e = false) ∧
    (SRM.runInit (SRM.startedOn 5) [Event.stop false]).1.isRecording = false ∧
    (SRM.runInit (SRM.startedOn 5) [Event.stop false]).1.onAnalyticsUpdate = true ∧
    ((SRM.onEnd 65005 (SRM.runInit (SRM.startedOn 5) [Event.stop false]).1).2
        = [Output.analyticsUpdate
            (SRM.snapshotOf 65005 (SRM.runInit (SRM.startedOn 5) [Event.stop false]).1) true] ∧
      (SRM.snapshotOf 65005 (SRM.runInit (SRM.startedOn 5) [Event.stop false]).1).duration
        = jsRound (((65005 : ℚ) - (5 : ℚ)) / 1000)) :=
  ⟨by decide, by decide, by decide,
    C3 5 65005 [Event.stop false] (by decide) (by decide) (by decide)⟩

/-- Claim C5: for every sequence `fs` of final fragments processed since a
successful session start, the session's word count is the total token count
of `fs` and its vocabulary set is the set of distinct normalized
(lowercased, punctuation-stripped, non-empty) tokens of `fs`; the
vocabulary-diversity value of the snapshot built from that state equals
distinct-over-total (`0` when the total is `0`) and lies in `[0,1]`; and
both emission sites — the interim emission when the next final fragment `g`
is processed, and the final emission when a halt follows a `stop()` — emit
exactly the snapshot of their current state. -/
theorem C5 (t0 now : Nat) (fs : List (List Char)) (g : List Char) (ht : t0 ≠ 0) :
    (SRM.procFinals (SRM.startedOn t0) fs).wordCount = totalTokens fs ∧
    (SRM.procFinals (SRM.startedOn t0) fs).uniqueWords = specVocab fs ∧
    (SRM.snapshotOf now (SRM.procFinals (SRM.startedOn t0) fs)).vocabularyDiversity
      = specVD fs ∧
    0 ≤ specVD fs ∧ specVD fs ≤ 1 ∧
    (totalTokens fs = 0 → specVD fs = 0) ∧
    (SRM.processTranscript now g (SRM.procFinals (SRM.startedOn t0) fs)).2
      = [Output.analyticsUpdate
          (SRM.snapshotOf now
            (SRM.processTranscriptState g (SRM.procFinals (SRM.startedOn t0) fs))) false] ∧
    (SRM.onEnd now (SRM.stop false (SRM.procFinals (SRM.startedOn t0) fs)).1).2
      = [Output.analyticsUpdate
          (SRM.snapshotOf now (SRM.procFinals (SRM.startedOn t0) fs)) true] := by
  have hwc : (SRM.procFinals (SRM.startedOn t0) fs).wordCount = totalTokens fs := by
    rw [SRM.procFinals_wordCount, show (SRM.startedOn t0).wordCount = 0 from rfl,
      Nat.zero_add]
  have huw : (SRM.procFinals (SRM.startedOn t0) fs).uniqueWords = specVocab fs := by
    rw [SRM.procFinals_uniqueWords, show (SRM.startedOn t0).uniqueWords = ∅ from rfl,
      Finset.empty_union]
  have hcb : (SRM.procFinals (SRM.startedOn t0) fs).onAnalyticsUpdate = true := by
    rw [SRM.procFinals_onAnalyticsUpdate]
    rfl
  have hstt : (SRM.procFinals (SRM.startedOn t0) fs).startTime = some t0 := by
    rw [SRM.procFinals_startTime]
    rfl
  have hdiv :
      (SRM.snapshotOf now (SRM.procFinals (SRM.startedOn t0) fs)).vocabularyDiversity
        = specVD fs := by
    simp only [SRM.snapshotOf]
    rw [hwc, huw, specVD]
    by_cases h0 : totalTokens fs = 0
    · rw [if_pos h0, h0]
      simp
    · rw [if_neg h0]
  refine ⟨hwc, huw, hdiv, ?_, ?_, ?_, ?_, ?_⟩
  · rw [specVD]
    split
    · exact le_refl 0
    · positivity
  · rw [specVD]
    split
    · exact zero_le_one
    · rename_i h0
      rw [div_le_one (by exact_mod_cast Nat.pos_of_ne_zero h0)]
      exact_mod_cast SRM.specVocab_card_le fs
  · intro h
    rw [specVD, if_pos h]
  · simp only [SRM.processTranscript]
    rw [SRM.processTranscriptState_startTime, SRM.processTranscriptState_onAnalyticsUpdate,
      hstt, hcb]
    simp [jsTruthyNat, bne_iff_ne, ht]
  · have hrec : (SRM.stop false (SRM.procFinals (SRM.startedOn t0) fs)).1.isRecording
        = false := rfl
    simp only [SRM.onEnd, hrec, if_false, Bool.false_eq_true]
    have hcb2 : (SRM.stop false (SRM.procFinals (SRM.startedOn t0) fs)).1.onAnalyticsUpdate
        = true := hcb
    rw [hcb2]
    simp only [if_true]
    rfl

/-- Claim C5, witness at the fragment sequence `["hello world hello"]`. -/
theorem C5_witness :
    (1 : Nat) ≠ 0 ∧
    ((SRM.procFinals (SRM.startedOn 1) ["hello world hello".toList]).wordCount
        = totalTokens ["hello world hello".toList] ∧
      (SRM.procFinals (SRM.startedOn 1) ["hello world hello".toList]).uniqueWords
        = specVocab ["hello world hello".toList] ∧
      (SRM.snapshotOf 2
          (SRM.procFinals (SRM.startedOn 1) ["hello world hello".toList])).vocabularyDiversity
        = specVD ["hello world hello".toList] ∧
      0 ≤ specVD ["hello world hello".toList] ∧
      specVD ["hello world hello".toList] ≤ 1 ∧
      (totalTokens ["hello world hello".toList] = 0
        → specVD ["hello world hello".toList] = 0) ∧
      (SRM.processTranscript 2 "ok".toList
          (SRM.procFinals (SRM.startedOn 1) ["hello world hello".toList])).2
        = [Output.analyticsUpdate
            (SRM.snapshotOf 2
              (SRM.processTranscriptState "ok".toList
                (SRM.procFinals (SRM.startedOn 1) ["hello world hello".toList]))) false] ∧
      (SRM.onEnd 2
          (SRM.stop false
            (SRM.procFinals (SRM.startedOn 1) ["hello world hello".toList])).1).2
        = [Output.analyticsUpdate
            (SRM.snapshotOf 2
              (SRM.procFinals (SRM.startedOn 1) ["hello world hello".toList])) true]) :=
  ⟨by decide, C5 1 2 ["hello world hello".toList] "ok".toList (by decide)⟩

/-- Claim C8: across every event that is not a successful `start()`, the
word count, the vocabulary set (under inclusion) and the filler-word count
are non-decreasing; and a successful `start()` — the session-start
transition — resets all three to zero/empty. -/
theorem C8 (st : InitState) (e : Event) :
    (isSuccessfulStart e = false →
      st.wordCount ≤ (SRM.stepInit st e).1.wordCount ∧
      st.uniqueWords ⊆ (SRM.stepInit st e).1.uniqueWords ∧
      st.fillerWordCount ≤ (SRM.stepInit st e).1.fillerWordCount) ∧
    (∀ now, (SRM.stepInit st (Event.start now false)).1.wordCount = 0 ∧
      (SRM.stepInit st (Event.start now false)).1.fillerWordCount = 0 ∧
      (SRM.stepInit st (Event.start now false)).1.uniqueWords = ∅) := by
  constructor
  · intro h
    cases e with
    | start now thr =>
      cases thr with
      | false => simp [isSuccessfulStart] at h
      | true => exact ⟨le_refl _, Finset.Subset.refl _, le_refl _⟩
    | stop thr => cases thr <;> exact ⟨le_refl _, Finset.Subset.refl _, le_refl _⟩
    | onresult now batch => exact SRM.resultLoop_mono now batch st [] [] []
    | onend now =>
      simp only [SRM.stepInit, SRM.onEnd]
      split <;> exact ⟨le_refl _, Finset.Subset.refl _, le_refl _⟩
    | onerror thr => cases thr <;> exact ⟨le_refl _, Finset.Subset.refl _, le_refl _⟩
    | setTranscriptCb b => exact ⟨le_refl _, Finset.Subset.refl _, le_refl _⟩
    | setAnalyticsCb b => exact ⟨le_refl _, Finset.Subset.refl _, le_refl _⟩
  · intro now
    exact ⟨rfl, rfl, rfl⟩

/-- Claim C8, witness at a concrete state and a `stop()` event. -/
theorem C8_witness :
    isSuccessfulStart (Event.stop false) = false ∧
    (initState.wordCount ≤ (SRM.stepInit initState (Event.stop false)).1.wordCount ∧
      initState.uniqueWords ⊆ (SRM.stepInit initState (Event.stop false)).1.uniqueWords ∧
      initState.fillerWordCount
        ≤ (SRM.stepInit initState (Event.stop false)).1.fillerWordCount) :=
  ⟨by decide, (C8 initState (Event.stop false)).1 (by decide)⟩

/-- Claim C9: processing the final fragment
`"um I think this is like really great"` adds to the filler-word count
exactly the sum over the configured filler phrases of their case-insensitive
whole-word match counts in the raw fragment text, and with the default
filler list that sum is exactly `2` (`"um"` and `"like"` once each). -/
theorem C9 (st : InitState) :
    (SRM.processTranscriptState "um I think this is like really great".toList st).fillerWordCount
      = st.fillerWordCount +
        (fillerWords.map
          (fun fw => countWholeWordCI fw "um I think this is like really great".toList)).sum ∧
    (fillerWords.map
      (fun fw => countWholeWordCI fw "um I think this is like really great".toList)).sum
      = 2 :=
  ⟨rfl, by decide⟩

/-- Claim C10: a session constructed without a recognition capability is the
uninitialised object: `start()` and `stop()` (and every other stimulus)
leave it unchanged and produce nothing, while `isListening()` and
`getTranscript()` return `undefined` (`none`) — not `false` and not the
empty string. -/
theorem C10 :
    mkSession false = none ∧
    SRM.isListening (mkSession false) = none ∧
    SRM.getTranscript (mkSession false) = none ∧
    SRM.isListening (mkSession false) ≠ some false ∧
    SRM.getTranscript (mkSession false) ≠ some [] ∧
    (∀ e, SRM.step (mkSession false) e = (mkSession false, [])) :=
  ⟨rfl, rfl, rfl, by decide, by decide, fun _ => rfl⟩
